import Mathlib

/-!
Shallow embedding of the feature-flag service (Hiring-AI repository).

The embedding covers:
* the flag record data model (`FeatureFlag`, `EvaluationContext`,
  `EvaluationResult`) from `src/domain/types` as used by the code;
* the evaluation engine `FeatureEvaluator.evaluate` / `evaluateMultiple`
  (`src/domain/feature-evaluator.ts`);
* the input validators (`src/domain/validators.ts`);
* the service layer (`src/services/feature.service.ts`) over an in-memory
  model of the repository (`src/repositories/feature.repository.ts`);
* the Redis cache wrapper (`src/cache/redis-cache.ts`).

JavaScript `Map<string, boolean>` objects are modelled as association lists
`List (String × Bool)` with first-match lookup (keys are unique in a `Map`,
so first-match lookup agrees with `Map.get`).  An optional field
(`regions?`, `userId?`, …) is an `Option`.  JavaScript string truthiness
(`if (context.userId && …)`) is explicit: `undefined` and the empty string
are falsy, every other string is truthy.
-/

/-- A `Map<string, boolean>` from the source, as an association list. -/
abbrev BoolMap := List (String × Bool)

/-- The `m.has(k)` of a JS `Map`. -/
def mapHas (m : BoolMap) (k : String) : Bool :=
  (m.lookup k).isSome

/-- The `m.get(k)!` of a JS `Map`, only ever used under a `has` guard in the
source; defaults to `false` outside that guard. -/
def mapGet (m : BoolMap) (k : String) : Bool :=
  (m.lookup k).getD false

/-- The `overrides` part of a flag record: the `regions` mapping is optional
in the schema (`regions?`), the other two are always present. -/
structure FeatureOverrides where
  users : BoolMap
  groups : BoolMap
  regions : Option BoolMap
deriving DecidableEq, Repr

/-- A flag record.  `createdAt` / `updatedAt` timestamps are set by the
store and are irrelevant to every operation modelled here, so they are
omitted.  `description` is optional free text. -/
structure FeatureFlag where
  key : String
  description : Option String
  enabled : Bool
  overrides : FeatureOverrides
deriving DecidableEq, Repr

/-- An evaluation context: a triple of optional identifiers. -/
structure EvaluationContext where
  userId : Option String := none
  groupId : Option String := none
  regionId : Option String := none
deriving DecidableEq, Repr

/-- An evaluation result `{ key, enabled, reason }`. -/
structure EvaluationResult where
  key : String
  enabled : Bool
  reason : String
deriving DecidableEq, Repr

/-- JS truthiness of an optional string: `undefined` and `""` are falsy. -/
def strTruthy : Option String → Bool
  | none => false
  | some s => s ≠ ""

/-- The guard `context.x && overrides.m.has(context.x)` from the source:
the identifier is truthy and the mapping has it. -/
def truthyHas (ido : Option String) (m : BoolMap) : Bool :=
  match ido with
  | none => false
  | some s => s ≠ "" && mapHas m s

/-- The `overrides.m.get(context.x)!`, evaluated under the `truthyHas` guard. -/
def truthyGet (ido : Option String) (m : BoolMap) : Bool :=
  match ido with
  | none => false
  | some s => mapGet m s

/-- The guard of the region branch,
`context.regionId && flag.overrides.regions?.has(context.regionId)`:
optional chaining makes an absent `regions` mapping behave as no match. -/
def regionHas (ido : Option String) (mo : Option BoolMap) : Bool :=
  match mo with
  | none => false
  | some m => truthyHas ido m

/-- The `FeatureEvaluator.evaluate` (src/domain/feature-evaluator.ts):
check the user override, then the group override, then the region
override, then fall back to the global default. -/
def evaluate (flag : FeatureFlag) (context : EvaluationContext) :
    EvaluationResult :=
  if truthyHas context.userId flag.overrides.users then
    { key := flag.key
      enabled := truthyGet context.userId flag.overrides.users
      reason := "user-override" }
  else if truthyHas context.groupId flag.overrides.groups then
    { key := flag.key
      enabled := truthyGet context.groupId flag.overrides.groups
      reason := "group-override" }
  else if regionHas context.regionId flag.overrides.regions then
    { key := flag.key
      enabled := truthyGet context.regionId (flag.overrides.regions.getD [])
      reason := "region-override" }
  else
    { key := flag.key
      enabled := flag.enabled
      reason := "global-default" }

/-- The `FeatureEvaluator.evaluateMultiple`: map `evaluate` over the flags. -/
def evaluateMultiple (flags : List FeatureFlag)
    (context : EvaluationContext) : List EvaluationResult :=
  flags.map (fun flag => evaluate flag context)

/-- The spec's data-model invariant on one override mapping (spec §3):
every entity identifier key is a string of 1–100 characters. -/
def wellFormedMap (m : BoolMap) : Bool :=
  m.all (fun p => 1 ≤ p.1.length && p.1.length ≤ 100)

/-- The spec's data-model invariant on a flag record (spec §3): all three
override mappings have identifier keys of 1–100 characters. -/
def wellFormedFlag (f : FeatureFlag) : Bool :=
  wellFormedMap f.overrides.users &&
  wellFormedMap f.overrides.groups &&
  wellFormedMap (f.overrides.regions.getD [])

/-- The engine as the spec states it (spec §4.1, algorithm steps 1–4):
a tier matches iff the context supplies that tier's identifier and the
tier's mapping contains it as a key — plain membership, with no
truthiness on the identifier.  Used as the comparison point for the
refinement claim about `evaluate`. -/
def memMatch (ido : Option String) (m : BoolMap) : Bool :=
  match ido with
  | none => false
  | some s => mapHas m s

/-- The spec-side evaluation algorithm (spec §4.1 steps 1–4, stated with
plain key membership). -/
def specEvaluate (flag : FeatureFlag) (context : EvaluationContext) :
    EvaluationResult :=
  if memMatch context.userId flag.overrides.users then
    { key := flag.key
      enabled := truthyGet context.userId flag.overrides.users
      reason := "user-override" }
  else if memMatch context.groupId flag.overrides.groups then
    { key := flag.key
      enabled := truthyGet context.groupId flag.overrides.groups
      reason := "group-override" }
  else if memMatch context.regionId (flag.overrides.regions.getD []) then
    { key := flag.key
      enabled := truthyGet context.regionId (flag.overrides.regions.getD [])
      reason := "region-override" }
  else
    { key := flag.key
      enabled := flag.enabled
      reason := "global-default" }

/-!
## Validators (src/domain/validators.ts)

A validator throws `ValidationError(message)` or returns; here it is an
`Except String Unit` whose error is the `ValidationError` message.
`typeof` guards are vacuous in the typed embedding.  The source's
`s.trim().length === 0` test holds exactly when every character of `s` is
whitespace, and is embedded as such (the exact whitespace alphabet only
selects which error message fires for strings the pattern check rejects
anyway).
-/

/-- One character of the key pattern `/^[a-zA-Z0-9_-]+$/` (ASCII ranges,
as in the JS regex; `Char.isAlpha` and `Char.isDigit` are ASCII-only). -/
def isKeyChar (c : Char) : Bool :=
  c.isAlpha || c.isDigit || c == '_' || c == '-'

/-- The `validateFeatureKey`: reject a falsy (empty) key, an all-whitespace
key, a key with a character outside `[a-zA-Z0-9_-]`, and a key longer
than 100 characters, in that order. -/
def validateFeatureKey (key : String) : Except String Unit :=
  if key == "" then
    Except.error "Feature key is required and must be a string"
  else if key.data.all Char.isWhitespace then
    Except.error "Feature key cannot be empty"
  else if !key.data.all isKeyChar then
    Except.error
      "Feature key must contain only alphanumeric characters, hyphens, and underscores"
  else if key.length > 100 then
    Except.error "Feature key must not exceed 100 characters"
  else
    Except.ok ()

/-- The `validateDescription`: an absent or falsy (empty) description passes;
a present description longer than 500 characters is rejected. -/
def validateDescription (d : Option String) : Except String Unit :=
  match d with
  | none => Except.ok ()
  | some s =>
    if s ≠ "" && s.length > 500 then
      Except.error "Description must not exceed 500 characters"
    else
      Except.ok ()

/-- The `validateEnabledState`: the `typeof enabled !== "boolean"` check cannot
fire on a `Bool`, so the embedded validator always succeeds. -/
def validateEnabledState (_enabled : Bool) : Except String Unit :=
  Except.ok ()

/-- The `validateOverrideType`: the type string must be one of
`user`, `group`, `region`. -/
def validateOverrideType (t : String) : Except String Unit :=
  if t == "user" || t == "group" || t == "region" then
    Except.ok ()
  else
    Except.error ("Invalid override type: " ++ t)

/-- The `validateOverrideId`: reject a falsy (empty) id, an all-whitespace id,
and an id longer than 100 characters.  No character-class restriction. -/
def validateOverrideId (id : String) : Except String Unit :=
  if id == "" then
    Except.error "Override ID is required and must be a string"
  else if id.data.all Char.isWhitespace then
    Except.error "Override ID cannot be empty"
  else if id.length > 100 then
    Except.error "Override ID must not exceed 100 characters"
  else
    Except.ok ()

/-- The `if (context.x !== undefined) validateOverrideId(context.x)` step
of `validateEvaluationContext`, for one optional field. -/
def validateOptionalId : Option String → Except String Unit
  | none => Except.ok ()
  | some s => validateOverrideId s

/-- The `validateEvaluationContext`: at least one of the three identifiers
must be truthy (JS truthiness: absent and `""` both fail), and every
supplied identifier must pass `validateOverrideId`. -/
def validateEvaluationContext (c : EvaluationContext) :
    Except String Unit :=
  if !(strTruthy c.userId || strTruthy c.groupId || strTruthy c.regionId) then
    Except.error
      "Evaluation context must include at least one of: userId, groupId, regionId"
  else do
    validateOptionalId c.userId
    validateOptionalId c.groupId
    validateOptionalId c.regionId

/-!
## Repository (src/repositories/feature.repository.ts)

The MongoDB collection is modelled as a list of flag records; `updateOne`
/ `deleteOne` act on the first record whose `key` matches (the store keeps
keys unique, so at most one matches).  A `matchedCount === 0` /
`deletedCount === 0` result becomes a `FeatureNotFoundError`; the unique
index violation on `create` becomes a `DuplicateFeatureError`.
-/

/-- The error taxonomy of src/domain/errors.ts, message payloads kept. -/
inductive ServiceError where
  | validation (msg : String)
  | notFound (key : String)
  | duplicate (key : String)
  | database (msg : String)
deriving DecidableEq, Repr

/-- The three override types. -/
inductive OverrideType where
  | user
  | group
  | region
deriving DecidableEq, Repr

/-- The override-type string, after `validateOverrideType` has accepted
it, as an `OverrideType` (any leftover string is unreachable). -/
def toOverrideType (t : String) : OverrideType :=
  if t == "user" then OverrideType.user
  else if t == "group" then OverrideType.group
  else OverrideType.region

/-- Upsert into an association list, as `$set` on a mapping field:
replace the value when the key is present, append otherwise. -/
def assocSet {α : Type} (m : List (String × α)) (k : String) (v : α) :
    List (String × α) :=
  if (m.lookup k).isSome then
    m.map (fun p => if p.1 == k then (p.1, v) else p)
  else
    m ++ [(k, v)]

/-- Remove a key from an association list, as `$unset` on a mapping
field: a no-op when the key is absent. -/
def assocErase {α : Type} (m : List (String × α)) (k : String) :
    List (String × α) :=
  m.filter (fun p => !(p.1 == k))

/-- The stored collection. -/
abbrev Store := List FeatureFlag

/-- The `findOne({ key })`: the first record with the given key. -/
def repoFindByKey (s : Store) (k : String) : Option FeatureFlag :=
  s.find? (fun f => f.key == k)

/-- Apply an update to the first record with the given key. -/
def updateFirst (s : Store) (k : String) (g : FeatureFlag → FeatureFlag) :
    Store :=
  match s with
  | [] => []
  | f :: rest => if f.key == k then g f :: rest else f :: updateFirst rest k g

/-- The `deleteOne({ key })`: drop the first record with the given key. -/
def removeFirst (s : Store) (k : String) : Store :=
  match s with
  | [] => []
  | f :: rest => if f.key == k then rest else f :: removeFirst rest k

/-- The `FeatureRepository.create`: insert, or fail with `DuplicateFeatureError`
when the unique index on `key` is violated. -/
def repoCreate (s : Store) (f : FeatureFlag) :
    Except ServiceError (FeatureFlag × Store) :=
  if (repoFindByKey s f.key).isSome then
    Except.error (ServiceError.duplicate f.key)
  else
    Except.ok (f, s ++ [f])

/-- The `FeatureRepository.updateGlobalState`: `$set { enabled }` on the
matched record; `FeatureNotFoundError` when nothing matched. -/
def repoUpdateGlobalState (s : Store) (k : String) (b : Bool) :
    Except ServiceError Store :=
  if (repoFindByKey s k).isSome then
    Except.ok (updateFirst s k (fun f => { f with enabled := b }))
  else
    Except.error (ServiceError.notFound k)

/-- The `$set overrides.{type}s.{id} = enabled` on one record.  Setting a
region override materialises an absent `regions` mapping. -/
def setOverrideOnFlag (t : OverrideType) (id : String) (b : Bool)
    (f : FeatureFlag) : FeatureFlag :=
  match t with
  | OverrideType.user =>
    { f with overrides :=
        { f.overrides with users := assocSet f.overrides.users id b } }
  | OverrideType.group =>
    { f with overrides :=
        { f.overrides with groups := assocSet f.overrides.groups id b } }
  | OverrideType.region =>
    { f with overrides :=
        { f.overrides with
            regions := some (assocSet (f.overrides.regions.getD []) id b) } }

/-- The `$unset overrides.{type}s.{id}` on one record: erase the entry if
present, a no-op otherwise; `$unset` of a path under an absent `regions`
mapping is a no-op. -/
def removeOverrideOnFlag (t : OverrideType) (id : String)
    (f : FeatureFlag) : FeatureFlag :=
  match t with
  | OverrideType.user =>
    { f with overrides :=
        { f.overrides with users := assocErase f.overrides.users id } }
  | OverrideType.group =>
    { f with overrides :=
        { f.overrides with groups := assocErase f.overrides.groups id } }
  | OverrideType.region =>
    { f with overrides :=
        { f.overrides with
            regions := f.overrides.regions.map (fun m => assocErase m id) } }

/-- The `FeatureRepository.addOrUpdateOverride`. -/
def repoAddOrUpdateOverride (s : Store) (k : String) (t : OverrideType)
    (id : String) (b : Bool) : Except ServiceError Store :=
  if (repoFindByKey s k).isSome then
    Except.ok (updateFirst s k (setOverrideOnFlag t id b))
  else
    Except.error (ServiceError.notFound k)

/-- The `FeatureRepository.removeOverride`. -/
def repoRemoveOverride (s : Store) (k : String) (t : OverrideType)
    (id : String) : Except ServiceError Store :=
  if (repoFindByKey s k).isSome then
    Except.ok (updateFirst s k (removeOverrideOnFlag t id))
  else
    Except.error (ServiceError.notFound k)

/-- The `FeatureRepository.delete`. -/
def repoDelete (s : Store) (k : String) : Except ServiceError Store :=
  if (repoFindByKey s k).isSome then
    Except.ok (removeFirst s k)
  else
    Except.error (ServiceError.notFound k)

/-!
## Service layer (src/services/feature.service.ts)

Each operation is explicit state passing over the `Store`: a thrown
error aborts the operation, so the returned store is the input store on
every error path.  A validator error surfaces as
`ServiceError.validation` with the validator's message.
-/

/-- The `FeatureService.createFeature`: validate key, description and enabled
state, then create the record with empty override mappings. -/
def svcCreateFeature (s : Store) (key : String) (d : Option String)
    (enabled : Bool) : Except ServiceError FeatureFlag × Store :=
  match validateFeatureKey key with
  | Except.error m => (Except.error (ServiceError.validation m), s)
  | Except.ok () =>
  match validateDescription d with
  | Except.error m => (Except.error (ServiceError.validation m), s)
  | Except.ok () =>
  match validateEnabledState enabled with
  | Except.error m => (Except.error (ServiceError.validation m), s)
  | Except.ok () =>
    match repoCreate s
        { key := key, description := d, enabled := enabled,
          overrides := { users := [], groups := [], regions := some [] } } with
    | Except.error e => (Except.error e, s)
    | Except.ok (f, s2) => (Except.ok f, s2)

/-- The `FeatureService.getFeature`: validate the key, fetch the record,
throw `FeatureNotFoundError` when absent. -/
def svcGetFeature (s : Store) (key : String) :
    Except ServiceError FeatureFlag × Store :=
  match validateFeatureKey key with
  | Except.error m => (Except.error (ServiceError.validation m), s)
  | Except.ok () =>
    match repoFindByKey s key with
    | none => (Except.error (ServiceError.notFound key), s)
    | some f => (Except.ok f, s)

/-- The `FeatureService.evaluateFeature`: validate the key and the context,
fetch the record through `getFeature`, then run the engine on it. -/
def svcEvaluateFeature (s : Store) (key : String) (c : EvaluationContext) :
    Except ServiceError EvaluationResult × Store :=
  match validateFeatureKey key with
  | Except.error m => (Except.error (ServiceError.validation m), s)
  | Except.ok () =>
  match validateEvaluationContext c with
  | Except.error m => (Except.error (ServiceError.validation m), s)
  | Except.ok () =>
    match svcGetFeature s key with
    | (Except.error e, s2) => (Except.error e, s2)
    | (Except.ok f, s2) => (Except.ok (evaluate f c), s2)

/-- The `FeatureService.updateGlobalState`. -/
def svcUpdateGlobalState (s : Store) (key : String) (enabled : Bool) :
    Except ServiceError Unit × Store :=
  match validateFeatureKey key with
  | Except.error m => (Except.error (ServiceError.validation m), s)
  | Except.ok () =>
  match validateEnabledState enabled with
  | Except.error m => (Except.error (ServiceError.validation m), s)
  | Except.ok () =>
    match repoUpdateGlobalState s key enabled with
    | Except.error e => (Except.error e, s)
    | Except.ok s2 => (Except.ok (), s2)

/-- The `FeatureService.addOrUpdateOverride`: validate key, type, id and
enabled state, verify the feature exists, then upsert the entry. -/
def svcAddOrUpdateOverride (s : Store) (key : String) (t : String)
    (id : String) (enabled : Bool) : Except ServiceError Unit × Store :=
  match validateFeatureKey key with
  | Except.error m => (Except.error (ServiceError.validation m), s)
  | Except.ok () =>
  match validateOverrideType t with
  | Except.error m => (Except.error (ServiceError.validation m), s)
  | Except.ok () =>
  match validateOverrideId id with
  | Except.error m => (Except.error (ServiceError.validation m), s)
  | Except.ok () =>
  match validateEnabledState enabled with
  | Except.error m => (Except.error (ServiceError.validation m), s)
  | Except.ok () =>
    match svcGetFeature s key with
    | (Except.error e, s2) => (Except.error e, s2)
    | (Except.ok _, s2) =>
      match repoAddOrUpdateOverride s2 key (toOverrideType t) id enabled with
      | Except.error e => (Except.error e, s2)
      | Except.ok s3 => (Except.ok (), s3)

/-- The `FeatureService.removeOverride`: validate key, type and id, verify
the feature exists, then remove the entry. -/
def svcRemoveOverride (s : Store) (key : String) (t : String)
    (id : String) : Except ServiceError Unit × Store :=
  match validateFeatureKey key with
  | Except.error m => (Except.error (ServiceError.validation m), s)
  | Except.ok () =>
  match validateOverrideType t with
  | Except.error m => (Except.error (ServiceError.validation m), s)
  | Except.ok () =>
  match validateOverrideId id with
  | Except.error m => (Except.error (ServiceError.validation m), s)
  | Except.ok () =>
    match svcGetFeature s key with
    | (Except.error e, s2) => (Except.error e, s2)
    | (Except.ok _, s2) =>
      match repoRemoveOverride s2 key (toOverrideType t) id with
      | Except.error e => (Except.error e, s2)
      | Except.ok s3 => (Except.ok (), s3)

/-- The `FeatureService.deleteFeature`. -/
def svcDeleteFeature (s : Store) (key : String) :
    Except ServiceError Unit × Store :=
  match validateFeatureKey key with
  | Except.error m => (Except.error (ServiceError.validation m), s)
  | Except.ok () =>
    match repoDelete s key with
    | Except.error e => (Except.error e, s)
    | Except.ok s2 => (Except.ok (), s2)

/-!
## Redis cache wrapper (src/cache/redis-cache.ts)

The underlying Redis client is modelled as a key-value map plus a
`failing` bit: when `failing` is set every client command raises.  Entry
expiration is real-time behaviour and is outside the embedding; `setEx`
stores the value.  Each wrapper method returns `Except String _` so that
"the method raised" is representable — the theorems show the error
constructor is never produced. -/
structure RedisClient where
  failing : Bool
  entries : List (String × String)
deriving DecidableEq, Repr

/-- The `client.get(key)`: raises when the client is failing. -/
def clientGet (cl : RedisClient) (k : String) :
    Except String (Option String) :=
  if cl.failing then Except.error "connection error"
  else Except.ok (cl.entries.lookup k)

/-- The `client.setEx(key, ttl, value)`: raises when the client is failing. -/
def clientSetEx (cl : RedisClient) (k v : String) :
    Except String RedisClient :=
  if cl.failing then Except.error "connection error"
  else Except.ok { cl with entries := assocSet cl.entries k v }

/-- The `client.del(key)`: raises when the client is failing. -/
def clientDel (cl : RedisClient) (k : String) :
    Except String RedisClient :=
  if cl.failing then Except.error "connection error"
  else Except.ok { cl with entries := assocErase cl.entries k }

/-- The `RedisCache` wrapper state: `client` is `null` until `connect`
succeeds, `isConnected` and `isEnabled` mirror the source fields. -/
structure RedisCache where
  client : Option RedisClient
  isConnected : Bool
  isEnabled : Bool
deriving DecidableEq, Repr

/-- The `RedisCache.get`: on a disabled, clientless or disconnected cache
return `null`; on a client error catch it and return `null`. -/
def cacheGet (c : RedisCache) (k : String) :
    Except String (Option String) :=
  match c.client with
  | none => Except.ok none
  | some cl =>
    if !c.isEnabled || !c.isConnected then Except.ok none
    else
      match clientGet cl k with
      | Except.error _ => Except.ok none
      | Except.ok v => Except.ok v

/-- The `RedisCache.set`: on a disabled, clientless or disconnected cache do
nothing; on a client error catch it and do nothing. -/
def cacheSet (c : RedisCache) (k v : String) : Except String RedisCache :=
  match c.client with
  | none => Except.ok c
  | some cl =>
    if !c.isEnabled || !c.isConnected then Except.ok c
    else
      match clientSetEx cl k v with
      | Except.error _ => Except.ok c
      | Except.ok cl2 => Except.ok { c with client := some cl2 }

/-- The `RedisCache.delete`: on a disabled, clientless or disconnected cache
do nothing; on a client error catch it and do nothing. -/
def cacheDelete (c : RedisCache) (k : String) : Except String RedisCache :=
  match c.client with
  | none => Except.ok c
  | some cl =>
    if !c.isEnabled || !c.isConnected then Except.ok c
    else
      match clientDel cl k with
      | Except.error _ => Except.ok c
      | Except.ok cl2 => Except.ok { c with client := some cl2 }

/-- The cache is unavailable: disabled, clientless, disconnected, or the
underlying client errors on every command. -/
def cacheUnavailable (c : RedisCache) : Bool :=
  !c.isEnabled || !c.isConnected ||
    (match c.client with
     | none => true
     | some cl => cl.failing)

/-!
## Per-operation validator chains

Each service operation begins with a fixed sequence of validator calls;
these definitions name that sequence (in the operation's own order) so
the error-propagation theorems can quantify over "the operation's
validation failed with message m".
-/

/-- The validator prefix of `createFeature`. -/
def createChecks (key : String) (d : Option String) (enabled : Bool) :
    Except String Unit := do
  validateFeatureKey key
  validateDescription d
  validateEnabledState enabled

/-- The validator prefix of `evaluateFeature`. -/
def evaluateChecks (key : String) (c : EvaluationContext) :
    Except String Unit := do
  validateFeatureKey key
  validateEvaluationContext c

/-- The validator prefix of `updateGlobalState`. -/
def updateChecks (key : String) (enabled : Bool) : Except String Unit := do
  validateFeatureKey key
  validateEnabledState enabled

/-- The validator prefix of `addOrUpdateOverride`. -/
def addOverrideChecks (key t id : String) (enabled : Bool) :
    Except String Unit := do
  validateFeatureKey key
  validateOverrideType t
  validateOverrideId id
  validateEnabledState enabled

/-- The validator prefix of `removeOverride`. -/
def removeOverrideChecks (key t id : String) : Except String Unit := do
  validateFeatureKey key
  validateOverrideType t
  validateOverrideId id

/-- The override mapping a given type addresses, with an absent region
mapping read as empty. -/
def overrideMap (t : OverrideType) (f : FeatureFlag) : BoolMap :=
  match t with
  | OverrideType.user => f.overrides.users
  | OverrideType.group => f.overrides.groups
  | OverrideType.region => f.overrides.regions.getD []

/-!
## Helper lemmas
-/

/-- A key with a `lookup` hit occurs as a key of the list. -/
theorem lookup_isSome_exists_mem {α : Type} {m : List (String × α)}
    {k : String} (h : (m.lookup k).isSome = true) : ∃ v, (k, v) ∈ m := by
  induction m with
  | nil => simp [List.lookup] at h
  | cons p rest ih =>
    obtain ⟨a, b⟩ := p
    by_cases hk : k = a
    · exact ⟨b, by simp [hk]⟩
    · have hne : (k == a) = false := beq_false_of_ne hk
      rw [List.lookup_cons] at h
      simp only [hne] at h
      obtain ⟨v, hv⟩ := ih h
      exact ⟨v, List.mem_cons_of_mem _ hv⟩

/-- In a well-formed mapping, a key with a `lookup` hit is non-empty. -/
theorem wf_lookup_key_ne_empty {m : BoolMap} {k : String}
    (hwf : wellFormedMap m = true) (h : (m.lookup k).isSome = true) :
    k ≠ "" := by
  obtain ⟨v, hmem⟩ := lookup_isSome_exists_mem h
  have hall := (List.all_eq_true.mp hwf) _ hmem
  simp only [Bool.and_eq_true, decide_eq_true_eq] at hall
  have hlen : 1 ≤ k.length := hall.1
  intro hk
  subst hk
  exact absurd hlen (by decide)

/-- On a well-formed mapping the source's truthiness-guarded match agrees
with the spec's plain key-membership match. -/
theorem truthyHas_eq_memMatch {ido : Option String} {m : BoolMap}
    (hwf : wellFormedMap m = true) : truthyHas ido m = memMatch ido m := by
  cases ido with
  | none => rfl
  | some s =>
    show (decide (s ≠ "") && mapHas m s) = mapHas m s
    cases hm : mapHas m s with
    | false => simp
    | true =>
      have : s ≠ "" := wf_lookup_key_ne_empty hwf (by simpa [mapHas] using hm)
      simp [this]

/-- The optional-chaining region guard agrees with the spec's membership
match on the defaulted region mapping, when that mapping is well formed. -/
theorem regionHas_eq_memMatch {ido : Option String} {mo : Option BoolMap}
    (hwf : wellFormedMap (mo.getD []) = true) :
    regionHas ido mo = memMatch ido (mo.getD []) := by
  cases mo with
  | none =>
    cases ido with
    | none => rfl
    | some s => simp [regionHas, memMatch, mapHas, List.lookup]
  | some m => simpa [regionHas] using truthyHas_eq_memMatch (m := m) hwf

/-- Split the record-level well-formedness hypothesis. -/
theorem wellFormedFlag_parts {f : FeatureFlag}
    (hwf : wellFormedFlag f = true) :
    wellFormedMap f.overrides.users = true ∧
    wellFormedMap f.overrides.groups = true ∧
    wellFormedMap (f.overrides.regions.getD []) = true := by
  have h := hwf
  unfold wellFormedFlag at h
  simp only [Bool.and_eq_true] at h
  exact ⟨h.1.1, h.1.2, h.2⟩

/-- An empty identifier, though supplied, never passes a truthiness guard. -/
theorem truthyHas_empty (m : BoolMap) : truthyHas (some "") m = false := by
  simp [truthyHas]

/-- An absent identifier never passes a truthiness guard. -/
theorem truthyHas_none (m : BoolMap) : truthyHas none m = false := rfl

/-- An empty region identifier never passes the region guard. -/
theorem regionHas_empty (mo : Option BoolMap) :
    regionHas (some "") mo = false := by
  cases mo with
  | none => rfl
  | some m => simp [regionHas, truthyHas_empty]

/-- An absent region identifier never passes the region guard. -/
theorem regionHas_none (mo : Option BoolMap) : regionHas none mo = false := by
  cases mo with
  | none => rfl
  | some m => rfl

/-!
## Claim theorems
-/

/-- C1: for every flag record (well formed per the spec's data model:
override identifiers are 1–100 characters) and every evaluation context,
`evaluate` returns exactly the result of the spec's algorithm: the
highest-precedence tier (user > group > region) whose identifier is
supplied and present in that tier's mapping provides the enabled value
and the reason; otherwise the reason is `global-default` and the enabled
value is the flag's global state. -/
theorem precedence_totality (f : FeatureFlag) (c : EvaluationContext)
    (hwf : wellFormedFlag f = true) : evaluate f c = specEvaluate f c := by
  obtain ⟨hu, hg, hr⟩ := wellFormedFlag_parts hwf
  unfold evaluate specEvaluate
  rw [truthyHas_eq_memMatch hu, truthyHas_eq_memMatch hg,
    regionHas_eq_memMatch hr]

/-- Witness for C1 at a concrete flag and context. -/
theorem precedence_totality_witness :
    evaluate
      { key := "premium", description := none, enabled := false,
        overrides := { users := [("u1", false)],
                       groups := [("enterprise-customers", true)],
                       regions := some [] } }
      { userId := some "u1", groupId := some "enterprise-customers",
        regionId := none } =
    specEvaluate
      { key := "premium", description := none, enabled := false,
        overrides := { users := [("u1", false)],
                       groups := [("enterprise-customers", true)],
                       regions := some [] } }
      { userId := some "u1", groupId := some "enterprise-customers",
        regionId := none } :=
  precedence_totality _ _ (by decide)

/-- C10: the engine treats an empty-string identifier as absent — if a
context field is `some ""`, the result is the same as with that field
absent, so an empty identifier can never select an override, even when
the mapping holds `""` as a key. -/
theorem empty_identifier_falls_through (f : FeatureFlag)
    (c : EvaluationContext) :
    (c.userId = some "" →
      evaluate f c = evaluate f { c with userId := none }) ∧
    (c.groupId = some "" →
      evaluate f c = evaluate f { c with groupId := none }) ∧
    (c.regionId = some "" →
      evaluate f c = evaluate f { c with regionId := none }) := by
  obtain ⟨u, g, r⟩ := c
  refine ⟨?_, ?_, ?_⟩ <;> intro h <;> dsimp only at h <;> subst h <;>
    simp only [evaluate, truthyHas_empty, truthyHas_none, regionHas_empty,
      regionHas_none] <;> simp

/-- Witness for C10: a flag whose user mapping holds `""` as a key is
still evaluated as if `userId` were absent. -/
theorem empty_identifier_falls_through_witness :
    evaluate
      { key := "f", description := none, enabled := false,
        overrides := { users := [("", true)], groups := [],
                       regions := some [] } }
      { userId := some "", groupId := none, regionId := none } =
    evaluate
      { key := "f", description := none, enabled := false,
        overrides := { users := [("", true)], groups := [],
                       regions := some [] } }
      { userId := none, groupId := none, regionId := none } :=
  (empty_identifier_falls_through _ _).1 rfl

/-- C4: bulk evaluation returns a list of the same length and order whose
i-th element is exactly the independent evaluation of the i-th flag. -/
theorem bulk_evaluation_pointwise (flags : List FeatureFlag)
    (c : EvaluationContext) :
    (evaluateMultiple flags c).length = flags.length ∧
    ∀ (i : Nat) (h : i < flags.length),
      (evaluateMultiple flags c).get ⟨i, by simpa [evaluateMultiple] using h⟩ =
        evaluate (flags.get ⟨i, h⟩) c := by
  constructor
  · simp [evaluateMultiple]
  · intro i h
    simp [evaluateMultiple]

/-- Witness for C4 on a two-flag list. -/
theorem bulk_evaluation_pointwise_witness :
    (evaluateMultiple
      [{ key := "a", description := none, enabled := true,
         overrides := { users := [], groups := [], regions := some [] } },
       { key := "b", description := none, enabled := false,
         overrides := { users := [("u1", true)], groups := [],
                        regions := some [] } }]
      { userId := some "u1", groupId := none, regionId := none }).length = 2 ∧
    (evaluateMultiple
      [{ key := "a", description := none, enabled := true,
         overrides := { users := [], groups := [], regions := some [] } },
       { key := "b", description := none, enabled := false,
         overrides := { users := [("u1", true)], groups := [],
                        regions := some [] } }]
      { userId := some "u1", groupId := none, regionId := none }).get
        ⟨1, by decide⟩ =
      evaluate
        { key := "b", description := none, enabled := false,
          overrides := { users := [("u1", true)], groups := [],
                         regions := some [] } }
        { userId := some "u1", groupId := none, regionId := none } :=
  ⟨(bulk_evaluation_pointwise _ _).1,
    (bulk_evaluation_pointwise _ _).2 1 (by decide)⟩

/-- A failed membership match forces a failed truthiness guard. -/
theorem truthyHas_false_of_memMatch_false {ido : Option String}
    {m : BoolMap} (h : memMatch ido m = false) : truthyHas ido m = false := by
  cases ido with
  | none => rfl
  | some s =>
    have hm : mapHas m s = false := by simpa [memMatch] using h
    simp [truthyHas, hm]

/-- C3: when a higher-precedence tier matches (its identifier is a key of
its mapping, the mapping being well formed per the spec's data model),
any change to the lower-precedence override mappings or to the global
default leaves the evaluation result unchanged; lower tiers are never
consulted. -/
theorem tier_independence (f : FeatureFlag) (c : EvaluationContext) :
    (wellFormedMap f.overrides.users = true →
      memMatch c.userId f.overrides.users = true →
      ∀ (G : BoolMap) (R : Option BoolMap) (e : Bool),
        evaluate
          { f with enabled := e,
                   overrides := { f.overrides with groups := G, regions := R } }
          c = evaluate f c) ∧
    (wellFormedMap f.overrides.groups = true →
      memMatch c.userId f.overrides.users = false →
      memMatch c.groupId f.overrides.groups = true →
      ∀ (R : Option BoolMap) (e : Bool),
        evaluate
          { f with enabled := e,
                   overrides := { f.overrides with regions := R } }
          c = evaluate f c) ∧
    (wellFormedMap (f.overrides.regions.getD []) = true →
      memMatch c.userId f.overrides.users = false →
      memMatch c.groupId f.overrides.groups = false →
      memMatch c.regionId (f.overrides.regions.getD []) = true →
      ∀ (e : Bool),
        evaluate { f with enabled := e } c = evaluate f c) := by
  refine ⟨?_, ?_, ?_⟩
  · intro hwf hm G R e
    have ht : truthyHas c.userId f.overrides.users = true := by
      rw [truthyHas_eq_memMatch hwf]; exact hm
    simp [evaluate, ht]
  · intro hwf hu hm R e
    have htu : truthyHas c.userId f.overrides.users = false :=
      truthyHas_false_of_memMatch_false hu
    have htg : truthyHas c.groupId f.overrides.groups = true := by
      rw [truthyHas_eq_memMatch hwf]; exact hm
    simp [evaluate, htu, htg]
  · intro hwf hu hg hm e
    have htu : truthyHas c.userId f.overrides.users = false :=
      truthyHas_false_of_memMatch_false hu
    have htg : truthyHas c.groupId f.overrides.groups = false :=
      truthyHas_false_of_memMatch_false hg
    have htr : regionHas c.regionId f.overrides.regions = true := by
      rw [regionHas_eq_memMatch hwf]; exact hm
    simp [evaluate, htu, htg, htr]

/-- Witness for C3: with a matching user override, rewriting the group
mapping, dropping the region mapping and flipping the global default does
not change the result. -/
theorem tier_independence_witness :
    evaluate
      { key := "premium", description := none, enabled := true,
        overrides := { users := [("u1", true)], groups := [("g1", true)],
                       regions := none } }
      { userId := some "u1", groupId := some "g1", regionId := none } =
    evaluate
      { key := "premium", description := none, enabled := false,
        overrides := { users := [("u1", true)], groups := [("g1", false)],
                       regions := some [] } }
      { userId := some "u1", groupId := some "g1", regionId := none } :=
  (tier_independence
    { key := "premium", description := none, enabled := false,
      overrides := { users := [("u1", true)], groups := [("g1", false)],
                     regions := some [] } }
    { userId := some "u1", groupId := some "g1", regionId := none }).1
    (by decide) (by decide) [("g1", true)] none true

/-- If the user guard fails, the reason cannot be `user-override`. -/
theorem evaluate_reason_user {f : FeatureFlag} {c : EvaluationContext}
    (h : truthyHas c.userId f.overrides.users = false) :
    (evaluate f c).reason ≠ "user-override" := by
  simp only [evaluate, h]
  repeat' split
  all_goals simp_all

/-- If the group guard fails, the reason cannot be `group-override`. -/
theorem evaluate_reason_group {f : FeatureFlag} {c : EvaluationContext}
    (h : truthyHas c.groupId f.overrides.groups = false) :
    (evaluate f c).reason ≠ "group-override" := by
  simp only [evaluate, h]
  repeat' split
  all_goals simp_all

/-- If the region guard fails, the reason cannot be `region-override`. -/
theorem evaluate_reason_region {f : FeatureFlag} {c : EvaluationContext}
    (h : regionHas c.regionId f.overrides.regions = false) :
    (evaluate f c).reason ≠ "region-override" := by
  simp only [evaluate, h]
  repeat' split
  all_goals simp_all

/-- A failed user guard makes the user identifier irrelevant. -/
theorem evaluate_drop_user {f : FeatureFlag} {cu cg cr : Option String}
    (h : truthyHas cu f.overrides.users = false) :
    evaluate f ⟨cu, cg, cr⟩ = evaluate f ⟨none, cg, cr⟩ := by
  simp [evaluate, h, truthyHas_none]

/-- A failed group guard makes the group identifier irrelevant. -/
theorem evaluate_drop_group {f : FeatureFlag} {cu cg cr : Option String}
    (h : truthyHas cg f.overrides.groups = false) :
    evaluate f ⟨cu, cg, cr⟩ = evaluate f ⟨cu, none, cr⟩ := by
  simp [evaluate, h, truthyHas_none]

/-- A failed region guard makes the region identifier irrelevant. -/
theorem evaluate_drop_region {f : FeatureFlag} {cu cg cr : Option String}
    (h : regionHas cr f.overrides.regions = false) :
    evaluate f ⟨cu, cg, cr⟩ = evaluate f ⟨cu, cg, none⟩ := by
  simp [evaluate, h, regionHas_none]

/-- C2: on a flag satisfying the spec's data-model invariant, for each
tier whose identifier the context supplies: an entry present with value
`false` (with the higher tiers not matching) yields that tier's reason
with `enabled = false`, while a wholly absent entry falls through — the
result is the same as with that identifier dropped, and its reason is
never that tier's reason; the two cases are thus distinguishable. -/
theorem absence_vs_false (f : FeatureFlag) (c : EvaluationContext)
    (hwf : wellFormedFlag f = true) :
    (∀ u, c.userId = some u →
      (f.overrides.users.lookup u = some false →
        evaluate f c =
          { key := f.key, enabled := false, reason := "user-override" }) ∧
      (f.overrides.users.lookup u = none →
        evaluate f c = evaluate f { c with userId := none } ∧
        (evaluate f c).reason ≠ "user-override")) ∧
    (∀ g, c.groupId = some g →
      (truthyHas c.userId f.overrides.users = false →
        f.overrides.groups.lookup g = some false →
        evaluate f c =
          { key := f.key, enabled := false, reason := "group-override" }) ∧
      (f.overrides.groups.lookup g = none →
        evaluate f c = evaluate f { c with groupId := none } ∧
        (evaluate f c).reason ≠ "group-override")) ∧
    (∀ r, c.regionId = some r →
      (truthyHas c.userId f.overrides.users = false →
        truthyHas c.groupId f.overrides.groups = false →
        (f.overrides.regions.getD []).lookup r = some false →
        evaluate f c =
          { key := f.key, enabled := false, reason := "region-override" }) ∧
      ((f.overrides.regions.getD []).lookup r = none →
        evaluate f c = evaluate f { c with regionId := none } ∧
        (evaluate f c).reason ≠ "region-override")) := by
  obtain ⟨hwu, hwg, hwr⟩ := wellFormedFlag_parts hwf
  obtain ⟨cu, cg, cr⟩ := c
  refine ⟨?_, ?_, ?_⟩
  · intro u hu
    dsimp only at hu
    subst hu
    constructor
    · intro hl
      have hne : u ≠ "" := wf_lookup_key_ne_empty hwu (by simp [hl])
      have hg : truthyHas (some u) f.overrides.users = true := by
        simp [truthyHas, mapHas, hl, hne]
      simp [evaluate, hg, truthyGet, mapGet, hl]
    · intro hl
      have hg : truthyHas (some u) f.overrides.users = false := by
        simp [truthyHas, mapHas, hl]
      exact ⟨evaluate_drop_user hg, evaluate_reason_user hg⟩
  · intro g hg
    dsimp only at hg
    subst hg
    constructor
    · intro hu hl
      have hne : g ≠ "" := wf_lookup_key_ne_empty hwg (by simp [hl])
      have hgg : truthyHas (some g) f.overrides.groups = true := by
        simp [truthyHas, mapHas, hl, hne]
      simp [evaluate, hu, hgg, truthyGet, mapGet, hl]
    · intro hl
      have hgg : truthyHas (some g) f.overrides.groups = false := by
        simp [truthyHas, mapHas, hl]
      exact ⟨evaluate_drop_group hgg, evaluate_reason_group hgg⟩
  · intro r hr
    dsimp only at hr
    subst hr
    constructor
    · intro hu hg hl
      have hsome : ∃ m, f.overrides.regions = some m := by
        cases hmo : f.overrides.regions with
        | none => rw [hmo] at hl; simp [List.lookup] at hl
        | some m => exact ⟨m, rfl⟩
      obtain ⟨m, hm⟩ := hsome
      rw [hm] at hl hwr
      simp only [Option.getD] at hl hwr
      have hne : r ≠ "" := wf_lookup_key_ne_empty hwr (by simp [hl])
      have hrr : regionHas (some r) (some m) = true := by
        simp [regionHas, truthyHas, mapHas, hl, hne]
      simp [evaluate, hu, hg, hm, hrr, truthyGet, mapGet, hl]
    · intro hl
      have hrr : regionHas (some r) f.overrides.regions = false := by
        cases hmo : f.overrides.regions with
        | none => rfl
        | some m =>
          rw [hmo] at hl
          simp only [Option.getD] at hl
          simp [regionHas, truthyHas, mapHas, hl]
      exact ⟨evaluate_drop_region hrr, evaluate_reason_region hrr⟩

/-- Witness for C2: the user tier with an explicit `false` entry, on a
well-formed flag whose global default is `true`. -/
theorem absence_vs_false_witness :
    evaluate
      { key := "beta", description := none, enabled := true,
        overrides := { users := [("u1", false)], groups := [],
                       regions := some [] } }
      { userId := some "u1", groupId := none, regionId := none } =
    { key := "beta", enabled := false, reason := "user-override" } :=
  (((absence_vs_false
      { key := "beta", description := none, enabled := true,
        overrides := { users := [("u1", false)], groups := [],
                       regions := some [] } }
      { userId := some "u1", groupId := none, regionId := none }
      (by decide)).1 "u1" rfl).1) rfl


/-- A string is non-empty iff it has at least one character. -/
theorem ne_empty_iff_one_le_length (s : String) : s ≠ "" ↔ 1 ≤ s.length := by
  constructor
  · intro h
    rcases Nat.eq_zero_or_pos s.length with h0 | h1
    · exfalso
      apply h
      have hd : s.data = [] := by
        have : s.data.length = 0 := h0
        exact List.length_eq_zero.mp this
      cases s
      simp_all
    · exact h1
  · intro h hs
    subst hs
    exact absurd h (by decide)

/-- A key-pattern character is never whitespace. -/
theorem isKeyChar_not_ws {ch : Char} (h : isKeyChar ch = true) :
    ch.isWhitespace = false := by
  by_contra hw
  have hw' : ch.isWhitespace = true := by simpa using hw
  have hcases : ch = ' ' ∨ ch = '\t' ∨ ch = '\r' ∨ ch = '\n' := by
    simpa [Char.isWhitespace, or_assoc] using hw'
  rcases hcases with h1 | h1 | h1 | h1 <;> subst h1 <;>
    exact absurd h (by decide)

/-- C7: `validateFeatureKey` accepts exactly the strings of the language
`[A-Za-z0-9_-]{1,100}` — non-empty, at most 100 characters, every
character in the class — and every other input produces a
`ValidationError` (the validator's only error kind). -/
theorem feature_key_validation_characterisation (key : String) :
    (validateFeatureKey key = Except.ok () ↔
      1 ≤ key.length ∧ key.length ≤ 100 ∧ key.data.all isKeyChar = true) ∧
    (validateFeatureKey key = Except.ok () ∨
      ∃ m, validateFeatureKey key = Except.error m) := by
  constructor
  · constructor
    · intro hok
      unfold validateFeatureKey at hok
      split_ifs at hok with h1 h2 h3 h4
      refine ⟨?_, ?_, ?_⟩
      · have hne : key ≠ "" := by
          intro hk
          exact h1 (by simp [hk])
        exact (ne_empty_iff_one_le_length key).mp hne
      · omega
      · simpa using h3
    · rintro ⟨hlen, h100, hall⟩
      have hne : key ≠ "" := (ne_empty_iff_one_le_length key).mpr hlen
      have hbeq : (key == "") = false := beq_false_of_ne hne
      have hdne : key.data ≠ [] := by
        intro hd
        have : key.length = 0 := by simp [String.length, hd]
        omega
      have hws : key.data.all Char.isWhitespace = false := by
        obtain ⟨ch, hch⟩ := List.exists_mem_of_ne_nil _ hdne
        have hkc : isKeyChar ch = true := List.all_eq_true.mp hall _ hch
        have := isKeyChar_not_ws hkc
        rw [List.all_eq_false]
        exact ⟨ch, hch, by simp [this]⟩
      have hnotgt : ¬ key.length > 100 := by omega
      simp [validateFeatureKey, hbeq, hws, hall, hnotgt]
  · cases h : validateFeatureKey key with
    | ok v =>
      left
      cases v
      rfl
    | error m =>
      right
      exact ⟨m, rfl⟩

/-- C5: with a well-formed key and a valid context, `evaluateFeature` on
a key the store does not hold fails with the NotFound error (leaving the
store untouched and returning no engine result), and on a key the store
holds it returns exactly the engine's result on the fetched record. -/
theorem evaluate_missing_key_not_found (s : Store) (key : String)
    (c : EvaluationContext)
    (hk : validateFeatureKey key = Except.ok ())
    (hc : validateEvaluationContext c = Except.ok ()) :
    (repoFindByKey s key = none →
      svcEvaluateFeature s key c =
        (Except.error (ServiceError.notFound key), s)) ∧
    (∀ f, repoFindByKey s key = some f →
      svcEvaluateFeature s key c = (Except.ok (evaluate f c), s)) := by
  constructor
  · intro h
    simp [svcEvaluateFeature, svcGetFeature, hk, hc, h]
  · intro f h
    simp [svcEvaluateFeature, svcGetFeature, hk, hc, h]

/-- Witness for C5: a key that was never created yields NotFound on the
empty store, and the same key yields the engine result once present. -/
theorem evaluate_missing_key_not_found_witness :
    svcEvaluateFeature [] "dark-mode"
      { userId := some "u1", groupId := none, regionId := none } =
      (Except.error (ServiceError.notFound "dark-mode"), []) ∧
    svcEvaluateFeature
      [{ key := "dark-mode", description := none, enabled := false,
         overrides := { users := [], groups := [], regions := some [] } }]
      "dark-mode"
      { userId := some "u1", groupId := none, regionId := none } =
      (Except.ok
        { key := "dark-mode", enabled := false, reason := "global-default" },
       [{ key := "dark-mode", description := none, enabled := false,
          overrides := { users := [], groups := [], regions := some [] } }]) :=
  ⟨(evaluate_missing_key_not_found [] "dark-mode"
      { userId := some "u1", groupId := none, regionId := none }
      rfl rfl).1 rfl,
   (evaluate_missing_key_not_found
      [{ key := "dark-mode", description := none, enabled := false,
         overrides := { users := [], groups := [], regions := some [] } }]
      "dark-mode"
      { userId := some "u1", groupId := none, regionId := none }
      rfl rfl).2 _ rfl⟩

/-- C6: for every service operation, when that operation's validator
chain fails with message `m`, the operation returns exactly the
Validation error with that message and the input store unchanged — for
every store, so the result is independent of the store's contents and
the store layer is never consulted. -/
theorem validation_before_store (s : Store) (key t id : String)
    (d : Option String) (enabled : Bool) (c : EvaluationContext)
    (m : String) :
    (createChecks key d enabled = Except.error m →
      svcCreateFeature s key d enabled =
        (Except.error (ServiceError.validation m), s)) ∧
    (validateFeatureKey key = Except.error m →
      svcGetFeature s key = (Except.error (ServiceError.validation m), s)) ∧
    (evaluateChecks key c = Except.error m →
      svcEvaluateFeature s key c =
        (Except.error (ServiceError.validation m), s)) ∧
    (updateChecks key enabled = Except.error m →
      svcUpdateGlobalState s key enabled =
        (Except.error (ServiceError.validation m), s)) ∧
    (addOverrideChecks key t id enabled = Except.error m →
      svcAddOrUpdateOverride s key t id enabled =
        (Except.error (ServiceError.validation m), s)) ∧
    (removeOverrideChecks key t id = Except.error m →
      svcRemoveOverride s key t id =
        (Except.error (ServiceError.validation m), s)) ∧
    (validateFeatureKey key = Except.error m →
      svcDeleteFeature s key =
        (Except.error (ServiceError.validation m), s)) := by
  refine ⟨?_, ?_, ?_, ?_, ?_, ?_, ?_⟩
  · intro h
    cases h1 : validateFeatureKey key with
    | error m1 =>
      have hm : m1 = m := by
        unfold createChecks at h
        simpa [h1, Bind.bind, Except.bind] using h
      subst hm
      simp [svcCreateFeature, h1]
    | ok u =>
      cases u
      cases h2 : validateDescription d with
      | error m2 =>
        have hm : m2 = m := by
          unfold createChecks at h
          simpa [h1, h2, Bind.bind, Except.bind] using h
        subst hm
        simp [svcCreateFeature, h1, h2]
      | ok u2 =>
        cases u2
        exfalso
        unfold createChecks at h
        simp [h1, h2, Bind.bind, Except.bind, validateEnabledState] at h
  · intro h
    simp [svcGetFeature, h]
  · intro h
    cases h1 : validateFeatureKey key with
    | error m1 =>
      have hm : m1 = m := by
        unfold evaluateChecks at h
        simpa [h1, Bind.bind, Except.bind] using h
      subst hm
      simp [svcEvaluateFeature, h1]
    | ok u =>
      cases u
      cases h2 : validateEvaluationContext c with
      | error m2 =>
        have hm : m2 = m := by
          unfold evaluateChecks at h
          simpa [h1, h2, Bind.bind, Except.bind] using h
        subst hm
        simp [svcEvaluateFeature, h1, h2]
      | ok u2 =>
        cases u2
        exfalso
        unfold evaluateChecks at h
        simp [h1, h2, Bind.bind, Except.bind] at h
  · intro h
    cases h1 : validateFeatureKey key with
    | error m1 =>
      have hm : m1 = m := by
        unfold updateChecks at h
        simpa [h1, Bind.bind, Except.bind] using h
      subst hm
      simp [svcUpdateGlobalState, h1]
    | ok u =>
      cases u
      exfalso
      unfold updateChecks at h
      simp [h1, Bind.bind, Except.bind, validateEnabledState] at h
  · intro h
    cases h1 : validateFeatureKey key with
    | error m1 =>
      have hm : m1 = m := by
        unfold addOverrideChecks at h
        simpa [h1, Bind.bind, Except.bind] using h
      subst hm
      simp [svcAddOrUpdateOverride, h1]
    | ok u =>
      cases u
      cases h2 : validateOverrideType t with
      | error m2 =>
        have hm : m2 = m := by
          unfold addOverrideChecks at h
          simpa [h1, h2, Bind.bind, Except.bind] using h
        subst hm
        simp [svcAddOrUpdateOverride, h1, h2]
      | ok u2 =>
        cases u2
        cases h3 : validateOverrideId id with
        | error m3 =>
          have hm : m3 = m := by
            unfold addOverrideChecks at h
            simpa [h1, h2, h3, Bind.bind, Except.bind] using h
          subst hm
          simp [svcAddOrUpdateOverride, h1, h2, h3]
        | ok u3 =>
          cases u3
          exfalso
          unfold addOverrideChecks at h
          simp [h1, h2, h3, Bind.bind, Except.bind, validateEnabledState] at h
  · intro h
    cases h1 : validateFeatureKey key with
    | error m1 =>
      have hm : m1 = m := by
        unfold removeOverrideChecks at h
        simpa [h1, Bind.bind, Except.bind] using h
      subst hm
      simp [svcRemoveOverride, h1]
    | ok u =>
      cases u
      cases h2 : validateOverrideType t with
      | error m2 =>
        have hm : m2 = m := by
          unfold removeOverrideChecks at h
          simpa [h1, h2, Bind.bind, Except.bind] using h
        subst hm
        simp [svcRemoveOverride, h1, h2]
      | ok u2 =>
        cases u2
        cases h3 : validateOverrideId id with
        | error m3 =>
          have hm : m3 = m := by
            unfold removeOverrideChecks at h
            simpa [h1, h2, h3, Bind.bind, Except.bind] using h
          subst hm
          simp [svcRemoveOverride, h1, h2, h3]
        | ok u3 =>
          cases u3
          exfalso
          unfold removeOverrideChecks at h
          simp [h1, h2, h3, Bind.bind, Except.bind] at h
  · intro h
    simp [svcDeleteFeature, h]

/-- Witness for C6: a malformed key (it contains a space and a bang)
fails validation, and deleting with it leaves a non-empty store exactly
as it was. -/
theorem validation_before_store_witness :
    svcDeleteFeature
      [{ key := "dark-mode", description := none, enabled := true,
         overrides := { users := [], groups := [], regions := some [] } }]
      "bad key!" =
      (Except.error (ServiceError.validation
        "Feature key must contain only alphanumeric characters, hyphens, and underscores"),
       [{ key := "dark-mode", description := none, enabled := true,
          overrides := { users := [], groups := [], regions := some [] } }]) :=
  (validation_before_store
    [{ key := "dark-mode", description := none, enabled := true,
       overrides := { users := [], groups := [], regions := some [] } }]
    "bad key!" "user" "u1" none true
    { userId := some "u1", groupId := none, regionId := none }
    "Feature key must contain only alphanumeric characters, hyphens, and underscores").2.2.2.2.2.2
    rfl

/-- Erasing an absent key is a no-op. -/
theorem assocErase_of_lookup_none {α : Type} {m : List (String × α)}
    {k : String} (h : m.lookup k = none) : assocErase m k = m := by
  induction m with
  | nil => rfl
  | cons p rest ih =>
    obtain ⟨a, v⟩ := p
    by_cases hk : k = a
    · subst hk
      simp [List.lookup_cons] at h
    · have hak : (a == k) = false := beq_false_of_ne (Ne.symm hk)
      have hres : rest.lookup k = none := by
        simpa [List.lookup_cons, beq_false_of_ne hk] using h
      simp only [assocErase, List.filter_cons, hak, Bool.not_false, if_true]
      exact congrArg (List.cons (a, v)) (by simpa [assocErase] using ih hres)

/-- After erasing a key it can no longer be looked up. -/
theorem lookup_assocErase {α : Type} (m : List (String × α)) (k : String) :
    (assocErase m k).lookup k = none := by
  induction m with
  | nil => rfl
  | cons p rest ih =>
    obtain ⟨a, v⟩ := p
    by_cases hk : a = k
    · subst hk
      simpa [assocErase, List.filter_cons] using (by simpa [assocErase] using ih)
    · have hak : (a == k) = false := beq_false_of_ne hk
      have hka : (k == a) = false := beq_false_of_ne (Ne.symm hk)
      simp only [assocErase, List.filter_cons, hak, Bool.not_false, if_true]
      rw [List.lookup_cons]
      simpa [hka] using (by simpa [assocErase] using ih)

/-- Removal rewrites exactly the addressed tier's mapping to its erasure. -/
theorem overrideMap_remove (t : OverrideType) (id : String)
    (f : FeatureFlag) :
    overrideMap t (removeOverrideOnFlag t id f) =
      assocErase (overrideMap t f) id := by
  cases t with
  | user => simp [overrideMap, removeOverrideOnFlag]
  | group => simp [overrideMap, removeOverrideOnFlag]
  | region =>
    cases hmo : f.overrides.regions with
    | none => simp [overrideMap, removeOverrideOnFlag, hmo, assocErase]
    | some m => simp [overrideMap, removeOverrideOnFlag, hmo]

/-- Removing an entry that is absent from the addressed tier leaves the
whole record unchanged. -/
theorem removeOverrideOnFlag_absent (t : OverrideType) (id : String)
    (f : FeatureFlag) (h : (overrideMap t f).lookup id = none) :
    removeOverrideOnFlag t id f = f := by
  cases t with
  | user =>
    simp only [removeOverrideOnFlag]
    rw [assocErase_of_lookup_none (by simpa [overrideMap] using h)]
  | group =>
    simp only [removeOverrideOnFlag]
    rw [assocErase_of_lookup_none (by simpa [overrideMap] using h)]
  | region =>
    simp only [removeOverrideOnFlag]
    have hmap : f.overrides.regions.map (fun m => assocErase m id) =
        f.overrides.regions := by
      cases hmo : f.overrides.regions with
      | none => rfl
      | some m =>
        simp only [overrideMap, hmo, Option.getD] at h
        simp [assocErase_of_lookup_none h]
    rw [hmap]

/-- Removal on one tier never touches the other tiers' mappings. -/
theorem overrideMap_remove_other (t t' : OverrideType) (id : String)
    (f : FeatureFlag) (h : t' ≠ t) :
    overrideMap t' (removeOverrideOnFlag t id f) = overrideMap t' f := by
  cases t <;> cases t' <;> simp_all [overrideMap, removeOverrideOnFlag]

/-- C8: `removeOverride` at the store fails with NotFound exactly when no
record has the key; on an existing record it succeeds whether or not the
entry is present — the addressed tier's mapping becomes its erasure (so
the entry is gone afterwards), an already-absent entry leaves the record
unchanged with no error, and the other tiers' mappings are untouched. -/
theorem remove_override_spec (s : Store) (k : String) (t : OverrideType)
    (id : String) :
    (repoFindByKey s k = none →
      repoRemoveOverride s k t id =
        Except.error (ServiceError.notFound k)) ∧
    (∀ f, repoFindByKey s k = some f →
      repoRemoveOverride s k t id =
        Except.ok (updateFirst s k (removeOverrideOnFlag t id))) ∧
    (∀ f, overrideMap t (removeOverrideOnFlag t id f) =
      assocErase (overrideMap t f) id) ∧
    (∀ f, (overrideMap t (removeOverrideOnFlag t id f)).lookup id = none) ∧
    (∀ f, (overrideMap t f).lookup id = none →
      removeOverrideOnFlag t id f = f) ∧
    (∀ f t', t' ≠ t →
      overrideMap t' (removeOverrideOnFlag t id f) = overrideMap t' f) := by
  refine ⟨?_, ?_, ?_, ?_, ?_, ?_⟩
  · intro h
    simp [repoRemoveOverride, h]
  · intro f h
    simp [repoRemoveOverride, h]
  · intro f
    exact overrideMap_remove t id f
  · intro f
    rw [overrideMap_remove]
    exact lookup_assocErase _ _
  · intro f h
    exact removeOverrideOnFlag_absent t id f h
  · intro f t' h
    exact overrideMap_remove_other t t' id f h

/-- Witness for C8: NotFound on the empty store, and successful removal
of one user entry on an existing record, the other entries intact. -/
theorem remove_override_spec_witness :
    repoRemoveOverride [] "beta" OverrideType.user "u1" =
      Except.error (ServiceError.notFound "beta") ∧
    repoRemoveOverride
      [{ key := "beta", description := none, enabled := true,
         overrides := { users := [("u1", false), ("u2", true)],
                        groups := [("g", true)], regions := some [] } }]
      "beta" OverrideType.user "u1" =
      Except.ok
        [{ key := "beta", description := none, enabled := true,
           overrides := { users := [("u2", true)],
                          groups := [("g", true)], regions := some [] } }] :=
  ⟨(remove_override_spec [] "beta" OverrideType.user "u1").1 rfl,
   (remove_override_spec
      [{ key := "beta", description := none, enabled := true,
         overrides := { users := [("u1", false), ("u2", true)],
                        groups := [("g", true)], regions := some [] } }]
      "beta" OverrideType.user "u1").2.1
      { key := "beta", description := none, enabled := true,
        overrides := { users := [("u1", false), ("u2", true)],
                       groups := [("g", true)], regions := some [] } }
      rfl⟩

/-- C9: the cache wrapper's `get`, `set` and `delete` never return the
error constructor — every call is `ok` — and whenever the cache is
unavailable (disabled, clientless, disconnected, or the client failing)
`get` degrades to a miss and `set`/`delete` to no-ops on the state. -/
theorem cache_errors_never_propagate (c : RedisCache) (k v : String) :
    (∃ r, cacheGet c k = Except.ok r) ∧
    (∃ c2, cacheSet c k v = Except.ok c2) ∧
    (∃ c2, cacheDelete c k = Except.ok c2) ∧
    (cacheUnavailable c = true →
      cacheGet c k = Except.ok none ∧
      cacheSet c k v = Except.ok c ∧
      cacheDelete c k = Except.ok c) := by
  obtain ⟨cl, conn, en⟩ := c
  cases cl with
  | none => simp [cacheGet, cacheSet, cacheDelete, cacheUnavailable]
  | some rc =>
    obtain ⟨fl, entries⟩ := rc
    cases conn <;> cases en <;> cases fl <;>
      simp [cacheGet, cacheSet, cacheDelete, cacheUnavailable, clientGet,
        clientSetEx, clientDel]

/-- Witness for C9: a connected, enabled cache whose client raises on
every command still answers `ok`: a miss on `get`, unchanged state on
`set` and `delete`. -/
theorem cache_errors_never_propagate_witness :
    cacheGet
      { client := some { failing := true, entries := [("feature:x", "v")] },
        isConnected := true, isEnabled := true } "feature:x" =
      Except.ok none ∧
    cacheSet
      { client := some { failing := true, entries := [("feature:x", "v")] },
        isConnected := true, isEnabled := true } "feature:x" "w" =
      Except.ok
        { client := some { failing := true, entries := [("feature:x", "v")] },
          isConnected := true, isEnabled := true } ∧
    cacheDelete
      { client := some { failing := true, entries := [("feature:x", "v")] },
        isConnected := true, isEnabled := true } "feature:x" =
      Except.ok
        { client := some { failing := true, entries := [("feature:x", "v")] },
          isConnected := true, isEnabled := true } :=
  (cache_errors_never_propagate
    { client := some { failing := true, entries := [("feature:x", "v")] },
      isConnected := true, isEnabled := true } "feature:x" "w").2.2.2 rfl
